import Mathlib

/-!
Verification development for the Cockroach Poker engine in `src/main.py`.

The Python engine is shallowly embedded as follows:
* `collections.Counter` values (hands, revealed piles) become association
  lists `List (String × Int)` with Python dict semantics: lookup of a
  missing key yields 0, assignment updates the first occurrence in place
  or appends a fresh key at the end, and `keys()` lists keys in insertion
  order (including keys whose count has dropped to 0).
* The dicts `player_hands` / `player_revealed` become association lists
  `List (String × Counter)` in player-registration order.
* An agent's parsed JSON reply becomes a `Response` of optional fields;
  `none` at the `Option Response` level models a reply that failed JSON
  parsing (every such failure is caught by the same `except` block as a
  validation error).  A JSON `guess` value may be a string, a boolean, or
  something else (`GuessVal`).
* `random.shuffle` is modelled by passing the shuffled deck explicitly,
  `random.choice` over a key list by a `pick : List String → String`
  oracle, and the LLM agent by an oracle `Nat → Option Response` indexed
  by the number of moves already played this round.
* The unbounded `while True` round loop becomes a fuel-indexed loop
  `play_round_loop`; sufficiency of the fuel used by `play_round` is
  proved (claim C9).
* Diagnostic reason strings on FORFEIT moves (which never influence the
  rules) are abstracted to a single fixed string.
-/

/-- The eight card types, `Runner.types` (main.py line 150). -/
def types : List String :=
  ["COCKROACH", "BAT", "FLY", "FROG", "RAT", "SCORPION", "SPIDER", "STINKBUG"]

/-- The 64-card deck, `Runner.deck = types * 8` (main.py line 151):
the list of the eight types concatenated eight times. -/
def deck : List String := (List.replicate 8 types).flatten

/-- A Python `Counter` with `int` values (counts may go negative). -/
abbrev Counter := List (String × Int)

/-- Python dict lookup: value of the first occurrence of a key. -/
def alookup {α : Type} : List (String × α) → String → Option α
  | [], _ => none
  | (k, v) :: t, key => if k = key then some v else alookup t key

/-- Python dict assignment: update the first occurrence in place, or
append the key at the end if it is new. -/
def aset {α : Type} : List (String × α) → String → α → List (String × α)
  | [], key, v => [(key, v)]
  | (k, w) :: t, key, v =>
      if k = key then (key, v) :: t else (k, w) :: aset t key v

/-- `Counter.__getitem__`: 0 for a missing key. -/
def counterGet (c : Counter) (k : String) : Int := (alookup c k).getD 0

/-- Python `in` on a Counter: key presence (a key with count 0 is present). -/
def counterContains (c : Counter) (k : String) : Bool := (alookup c k).isSome

/-- `c[k] += 1`. -/
def counterIncr (c : Counter) (k : String) : Counter := aset c k (counterGet c k + 1)

/-- `c[k] -= 1`. -/
def counterDecr (c : Counter) (k : String) : Counter := aset c k (counterGet c k - 1)

/-- `list(c.keys())`, in insertion order. -/
def counterKeys (c : Counter) : List String := c.map (fun p => p.1)

/-- `sum(c.values())`. -/
def counterTotal (c : Counter) : Int := (c.map (fun p => p.2)).sum

/-- `Counter(iterable)`. -/
def counterOfList (l : List String) : Counter :=
  l.foldl (fun c x => counterIncr c x) []

/-- The `Move` record (main.py lines 79-94).  The constructor replaces
falsy field values by the empty string, see `mkMove`. -/
structure Move where
  player : String
  action : String
  target : String
  card : String
  claim : String
  guess : String
  reason : String
deriving DecidableEq, Repr

/-- `Move.__init__`: each optional field defaults to `""` (lines 87-94). -/
def mkMove (player action : String)
    (target card claim guess reason : Option String) : Move :=
  ⟨player, action, target.getD "", card.getD "", claim.getD "",
    guess.getD "", reason.getD ""⟩

/-- Placeholder used for `history[-1]` lookups; the engine never reads it
on a reachable path (the non-opening branches always see a nonempty
history). -/
def defaultMove : Move := ⟨"", "", "", "", "", "", ""⟩

/-- A JSON value appearing in the `guess` field: string, boolean, or
anything else. -/
inductive GuessVal where
  | str (s : String)
  | bool (b : Bool)
  | other
deriving DecidableEq, Repr

/-- An agent's parsed JSON reply; absent keys are `none`. -/
structure Response where
  action : Option String
  target : Option String
  card : Option String
  claim : Option String
  guess : Option GuessVal
  reason : Option String
deriving DecidableEq, Repr

/-- Python `str.upper()` (ASCII uppercasing), written directly on the
character list so that it evaluates by kernel reduction. -/
def strUpper (s : String) : String := ⟨s.data.map Char.toUpper⟩

/-- Guess normalization (main.py lines 261-267 and 313-319): a boolean is
cast to `"TRUE"`/`"FALSE"`, a string is uppercased and must then be one
of the two; anything else fails. -/
def normalize_guess (g : GuessVal) : Option String :=
  match g with
  | .bool b => some (if b then "TRUE" else "FALSE")
  | .str s =>
      if strUpper s = "TRUE" ∨ strUpper s = "FALSE" then some (strUpper s) else none
  | .other => none

/-- The FORFEIT move produced by every `except` handler; the diagnostic
reason string is abstracted to a fixed value. -/
def errMove (current : String) (card : Option String) : Move :=
  mkMove current "FORFEIT" none card none none (some "Error parsing response")

/-- The shared guess-validation path (body of main.py lines 257-268, also
lines 310-320): keys `guess` and `reason` must be present and the guess
must normalize; on success a GUESS move against the last move's
player/card/claim is produced, otherwise a FORFEIT carrying the last
move's card. -/
def guess_attempt (current : String) (last : Move) (resp : Response) : Move :=
  match resp.guess, resp.reason with
  | some g, some r =>
      match normalize_guess g with
      | some gs =>
          mkMove current "GUESS" (some last.player) (some last.card)
            (some last.claim) (some gs) (some r)
      | none => errMove current (some last.card)
  | _, _ => errMove current (some last.card)

/-- Opening branch of `Runner.play_move` (lines 222-247): keys `card`,
`target`, `claim`, `reason` must be present; the target must be legal,
the card a known type present with count ≥ 1 in the hand, the claim a
known type.  On success the card is decremented from the hand and a PLAY
move is returned; any violation returns a FORFEIT (with no card) and
leaves the hand unchanged. -/
def play_move_opening (current : String) (hand : Counter)
    (valid_targets : List String) (resp? : Option Response) : Move × Counter :=
  match resp? with
  | none => (errMove current none, hand)
  | some r =>
      match r.card, r.target, r.claim, r.reason with
      | some c, some t, some cl, some rs =>
          if t ∈ valid_targets then
            if c ∈ types then
              if counterContains hand c ∧ 1 ≤ counterGet hand c then
                if cl ∈ types then
                  (mkMove current "PLAY" (some t) (some c) (some cl) none (some rs),
                    counterDecr hand c)
                else (errMove current none, hand)
              else (errMove current none, hand)
            else (errMove current none, hand)
          else (errMove current none, hand)
      | _, _, _, _ => (errMove current none, hand)

/-- Forced-terminal branch of `Runner.play_move` (lines 248-271): the
reply is processed purely as a guess; the `action` field is never
consulted. -/
def play_move_forced (current : String) (last : Move)
    (resp? : Option Response) : Move :=
  match resp? with
  | none => errMove current (some last.card)
  | some r => guess_attempt current last r

/-- Must-pass branch of `Runner.play_move` (lines 272-295), taken when the
previous move was a LOOK: keys `target`, `claim`, `reason` must be
present, the target legal and the claim a known type.  Note that the PASS
move produced on line 292 records `last_move.claim` — the claim inherited
from before the LOOK — not the freshly validated `response["claim"]`. -/
def play_move_mustpass (current : String) (valid_targets : List String)
    (last : Move) (resp? : Option Response) : Move :=
  match resp? with
  | none => errMove current (some last.card)
  | some r =>
      match r.target, r.claim, r.reason with
      | some t, some cl, some rs =>
          if t ∈ valid_targets then
            if cl ∈ types then
              mkMove current "PASS" (some t) (some last.card) (some last.claim)
                none (some rs)
            else errMove current (some last.card)
          else errMove current (some last.card)
      | _, _, _ => errMove current (some last.card)

/-- Free-choice branch of `Runner.play_move` (lines 296-323): if the
`action` field equals `"LOOK"` a LOOK move is produced (a missing
`reason` key raises and forfeits); for any other `action` value —
including a missing one — the reply is processed as a guess. -/
def play_move_free (current : String) (last : Move)
    (resp? : Option Response) : Move :=
  match resp? with
  | none => errMove current (some last.card)
  | some r =>
      if r.action = some "LOOK" then
        match r.reason with
        | some rs =>
            mkMove current "LOOK" (some last.player) (some last.card)
              (some last.claim) none (some rs)
        | none => errMove current (some last.card)
      else guess_attempt current last r

/-- `Runner.play_move` (lines 221-323): branch dispatch in source order on
the number of remaining valid targets and the previous move's action. -/
def play_move (numPlayers : Nat) (current : String) (hand : Counter)
    (valid_targets : List String) (history : List Move)
    (resp? : Option Response) : Move × Counter :=
  if valid_targets.length = numPlayers - 1 then
    play_move_opening current hand valid_targets resp?
  else if valid_targets.length = 0 then
    (play_move_forced current (history.getLastD defaultMove) resp?, hand)
  else if (history.getLastD defaultMove).action = "LOOK" then
    (play_move_mustpass current valid_targets (history.getLastD defaultMove) resp?, hand)
  else
    (play_move_free current (history.getLastD defaultMove) resp?, hand)

/-- GUESS resolution in `Runner.play_round` (lines 338-348): the guess is
the assertion `guess == "TRUE"`, it is correct iff
`(guess and card == claim) or (not guess and card != claim)`; the loser
(who takes the card into their revealed pile, and becomes the next
current player) is the claimant `move.target` when correct and the
guesser `move.player` when incorrect.  Returns the loser (= new current
player) and the updated revealed piles. -/
def resolve_guess (revealed : List (String × Counter)) (m : Move) :
    String × List (String × Counter) :=
  let guess : Bool := m.guess == "TRUE"
  let correct : Bool := (guess && (m.card == m.claim)) || (!guess && !(m.card == m.claim))
  if correct then
    (m.target, aset revealed m.target
      (counterIncr ((alookup revealed m.target).getD []) m.card))
  else
    (m.player, aset revealed m.player
      (counterIncr ((alookup revealed m.player).getD []) m.card))

/-- The mutable state threaded through one round of `Runner.play_round`. -/
structure RoundState where
  hands : List (String × Counter)
  revealed : List (String × Counter)
  current : String
  valid_targets : List String
  history : List Move
deriving DecidableEq, Repr

/-- The `while True` loop of `Runner.play_round` (lines 331-357), with
explicit fuel.  PLAY/PASS advance the current player to the target and
prune it from the valid targets; GUESS resolves via `resolve_guess`;
FORFEIT first backfills an empty card field by `pick`ing a key of the
forfeiter's hand (decrementing it, main.py lines 350-352), then puts the
card into the forfeiter's revealed pile; LOOK just continues. -/
def play_round_loop (numPlayers : Nat) (agent : Nat → Option Response)
    (pick : List String → String) :
    Nat → RoundState → Option (String × RoundState)
  | 0, _ => none
  | fuel + 1, st =>
      let mh := play_move numPlayers st.current
        ((alookup st.hands st.current).getD []) st.valid_targets st.history
        (agent st.history.length)
      let move := mh.1
      let hands1 := aset st.hands st.current mh.2
      if move.action = "PLAY" ∨ move.action = "PASS" then
        play_round_loop numPlayers agent pick fuel
          { hands := hands1, revealed := st.revealed, current := move.target,
            valid_targets := st.valid_targets.filter (fun p => p ≠ move.target),
            history := st.history ++ [move] }
      else if move.action = "GUESS" then
        let r := resolve_guess st.revealed move
        some (r.1, { hands := hands1, revealed := r.2, current := r.1,
                     valid_targets := st.valid_targets,
                     history := st.history ++ [move] })
      else if move.action = "FORFEIT" then
        if move.card = "" then
          let hc := (alookup hands1 st.current).getD []
          let c := pick (counterKeys hc)
          let hands2 := aset hands1 st.current (counterDecr hc c)
          let move2 := { move with card := c }
          some (move2.player,
            { hands := hands2,
              revealed := aset st.revealed move2.player
                (counterIncr ((alookup st.revealed move2.player).getD []) move2.card),
              current := move2.player, valid_targets := st.valid_targets,
              history := st.history ++ [move2] })
        else
          some (move.player,
            { hands := hands1,
              revealed := aset st.revealed move.player
                (counterIncr ((alookup st.revealed move.player).getD []) move.card),
              current := move.player, valid_targets := st.valid_targets,
              history := st.history ++ [move] })
      else
        play_round_loop numPlayers agent pick fuel
          { hands := hands1, revealed := st.revealed, current := st.current,
            valid_targets := st.valid_targets, history := st.history ++ [move] }

/-- `Runner.play_round` (lines 326-357): the valid targets start as all
players other than the current one, the history empty; fuel
`2 * numPlayers + 2` is sufficient (claim C9). -/
def play_round (players : List String) (agent : Nat → Option Response)
    (pick : List String → String) (hands revealed : List (String × Counter))
    (current : String) : Option (String × RoundState) :=
  play_round_loop players.length agent pick (2 * players.length + 2)
    { hands := hands, revealed := revealed, current := current,
      valid_targets := players.filter (fun p => p ≠ current), history := [] }

/-- `Runner.chunk_cards_equally` (lines 158-162): chunk `i` is the slice
`deck[i*k+min(i,m) : (i+1)*k+min(i+1,m)]` where `k, m = divmod(len(deck), n)`. -/
def chunk_cards_equally (deckL : List String) (n : Nat) : List (List String) :=
  let k := deckL.length / n
  let m := deckL.length % n
  (List.range n).map (fun i => (deckL.take ((i + 1) * k + min (i + 1) m)).drop (i * k + min i m))

/-- `Runner.set_up_game` (lines 164-172) with the shuffle and the random
starting-player choice passed in explicitly: deal the shuffled deck into
per-player `Counter` hands and empty revealed piles.  Returns
(hands, revealed). -/
def set_up_game (players : List String) (shuffled : List String) :
    (List (String × Counter)) × (List (String × Counter)) :=
  ((players.zip (chunk_cards_equally shuffled players.length)).map
      (fun pc => (pc.1, counterOfList pc.2)),
    players.map (fun p => (p, ([] : Counter))))

/-- Second loop of `Runner.check_for_loser` (lines 191-194): the first
player, in registration order, whose revealed pile has some count equal
to 4. -/
def find_four : List (String × Counter) → Option (String × String)
  | [] => none
  | (p, r) :: t =>
      match r.find? (fun cc => cc.2 == 4) with
      | some cc => some (p, "4x " ++ cc.1)
      | none => find_four t

/-- `Runner.check_for_loser` (lines 186-195): first scan all hands, in
registration order, for an empty hand (sum of counts 0); only then scan
all revealed piles for a count of 4. -/
def check_for_loser (hands revealed : List (String × Counter)) :
    Option (String × String) :=
  match hands.find? (fun ph => counterTotal ph.2 == 0) with
  | some ph => some (ph.1, "No more cards in hand")
  | none => find_four revealed

/-- The conserved quantity of claim C3: the sum of all hand counts plus
the sum of all revealed-pile counts. -/
def total_cards (hands revealed : List (String × Counter)) : Int :=
  (hands.map (fun p => counterTotal p.2)).sum
    + (revealed.map (fun p => counterTotal p.2)).sum

/-! ### Association-list and counter lemmas -/

theorem alookup_aset_self {α : Type} (l : List (String × α)) (k : String) (v : α) :
    alookup (aset l k v) k = some v := by
  induction l with
  | nil => simp [aset, alookup]
  | cons h t ih =>
      obtain ⟨k', w⟩ := h
      by_cases hk : k' = k
      · simp [aset, hk, alookup]
      · simp [aset, hk, alookup, ih]

theorem alookup_aset_ne {α : Type} (l : List (String × α)) (k k' : String) (v : α)
    (h : k' ≠ k) : alookup (aset l k v) k' = alookup l k' := by
  have hkk : k ≠ k' := Ne.symm h
  induction l with
  | nil => simp [aset, alookup, hkk]
  | cons hd t ih =>
      obtain ⟨k0, w⟩ := hd
      by_cases hk : k0 = k
      · subst hk
        simp [aset, alookup, hkk]
      · simp [aset, hk, alookup, ih]

theorem counterGet_incr_self (c : Counter) (k : String) :
    counterGet (counterIncr c k) k = counterGet c k + 1 := by
  simp [counterIncr, counterGet, alookup_aset_self]

theorem counterGet_decr_self (c : Counter) (k : String) :
    counterGet (counterDecr c k) k = counterGet c k - 1 := by
  simp [counterDecr, counterGet, alookup_aset_self]

theorem counterGet_eq_zero_of_not_contains (c : Counter) (k : String)
    (h : counterContains c k = false) : counterGet c k = 0 := by
  unfold counterContains at h
  cases ho : alookup c k with
  | none => simp [counterGet, ho]
  | some v => rw [ho] at h; simp at h

/-! ### Slice lemmas for `chunk_cards_equally` (claim C6) -/

theorem drop_take_append {α : Type} (A : List α) (x y : Nat) (hxy : x ≤ y) :
    (A.take y).drop x ++ A.drop y = A.drop x := by
  by_cases hx : x ≤ A.length
  · have h1 : x ≤ (A.take y).length := by
      rw [List.length_take]; omega
    rw [← List.drop_append_of_le_length h1, List.take_append_drop]
  · push_neg at hx
    have hA : A.drop x = [] := List.drop_eq_nil_of_le (by omega)
    have h2 : (A.take y).drop x = [] := List.drop_eq_nil_of_le (by rw [List.length_take]; omega)
    have h3 : A.drop y = [] := List.drop_eq_nil_of_le (by omega)
    simp [hA, h2, h3]

theorem slice_merge {α : Type} (l : List α) (x y z : Nat) (hxy : x ≤ y) (hyz : y ≤ z) :
    (l.take y).drop x ++ (l.take z).drop y = (l.take z).drop x := by
  have h : l.take y = (l.take z).take y := by
    rw [List.take_take, Nat.min_eq_left hyz]
  rw [h]
  exact drop_take_append (l.take z) x y hxy

theorem flatten_slices {α : Type} (l : List α) (b : Nat → Nat)
    (hb : ∀ i, b i ≤ b (i + 1)) :
    ∀ n, ((List.range n).map (fun i => (l.take (b (i + 1))).drop (b i))).flatten
      = (l.take (b n)).drop (b 0) := by
  intro n
  induction n with
  | zero =>
      have h : (l.take (b 0)).drop (b 0) = [] :=
        List.drop_eq_nil_of_le (by rw [List.length_take]; omega)
      simp [h]
  | succ n ih =>
      rw [List.range_succ, List.map_append, List.flatten_append, ih]
      simp only [List.map_cons, List.map_nil, List.flatten_cons, List.flatten_nil,
        List.append_nil]
      exact slice_merge l (b 0) (b n) (b (n + 1))
        (monotone_nat_of_le_succ hb (Nat.zero_le n)) (hb n)

theorem getD_map_range (f : Nat → List String) (n i : Nat) (h : i < n) :
    ((List.range n).map f).getD i [] = f i := by
  rw [List.getD_eq_getElem?_getD, List.getElem?_map, List.getElem?_range h]
  rfl

theorem count_flatten_eq_sum (s : String) :
    ∀ L : List (List String), L.flatten.count s = (L.map (fun l => l.count s)).sum := by
  intro L
  induction L with
  | nil => simp
  | cons h t ih => simp [List.count_append, ih]

theorem chunk_len_arith (L k m i : Nat)
    (hle : (i + 1) * k + min (i + 1) m ≤ L) :
    min ((i + 1) * k + min (i + 1) m) L - (i * k + min i m)
      = if i < m then k + 1 else k := by
  have he : (i + 1) * k = i * k + k := by ring
  rw [Nat.min_eq_left hle]
  by_cases hc : i < m
  · rw [if_pos hc, Nat.min_eq_left (show i + 1 ≤ m by omega),
      Nat.min_eq_left (show i ≤ m by omega)]
    omega
  · rw [if_neg hc, Nat.min_eq_right (show m ≤ i + 1 by omega),
      Nat.min_eq_right (show m ≤ i by omega)]
    omega

/-- Claim C6: `chunk_cards_equally` splits a 64-card deck among any
`n ≥ 1` players into `n` contiguous chunks; flattening the chunks
restores the deck exactly (hence the multiset union is the deck: every
card type's count is preserved), the first `64 % n` chunks have size
`64 / n + 1`, the rest have size `64 / n`, and any two chunk sizes differ
by at most 1. -/
theorem c6_deal_partition (deckL : List String) (n : Nat)
    (h1 : 1 ≤ n) (h2 : deckL.length = 64) :
    (chunk_cards_equally deckL n).length = n ∧
    (chunk_cards_equally deckL n).flatten = deckL ∧
    (∀ s : String, ((chunk_cards_equally deckL n).map (fun ch => ch.count s)).sum
        = deckL.count s) ∧
    (∀ i, i < n → ((chunk_cards_equally deckL n).getD i []).length
        = if i < 64 % n then 64 / n + 1 else 64 / n) ∧
    (∀ i j, i < n → j < n →
      ((chunk_cards_equally deckL n).getD i []).length
        ≤ ((chunk_cards_equally deckL n).getD j []).length + 1) := by
  have hmlt : 64 % n < n := Nat.mod_lt _ (by omega)
  have hb : ∀ i, i * (64 / n) + min i (64 % n)
      ≤ (i + 1) * (64 / n) + min (i + 1) (64 % n) := by
    intro i
    have h3 : i * (64 / n) ≤ (i + 1) * (64 / n) :=
      Nat.mul_le_mul_right _ (Nat.le_succ i)
    have h4 : min i (64 % n) ≤ min (i + 1) (64 % n) :=
      min_le_min (Nat.le_succ i) le_rfl
    omega
  have hchunk : chunk_cards_equally deckL n = (List.range n).map (fun i =>
      (deckL.take ((i + 1) * (64 / n) + min (i + 1) (64 % n))).drop
        (i * (64 / n) + min i (64 % n))) := by
    simp only [chunk_cards_equally, h2]
  have hbn : n * (64 / n) + min n (64 % n) = 64 := by
    rw [Nat.min_eq_right (le_of_lt hmlt)]
    exact Nat.div_add_mod 64 n
  have hmono : Monotone (fun i => i * (64 / n) + min i (64 % n)) :=
    monotone_nat_of_le_succ hb
  have hflat : (chunk_cards_equally deckL n).flatten = deckL := by
    rw [hchunk,
      flatten_slices deckL (fun i => i * (64 / n) + min i (64 % n)) hb n]
    simp only [Nat.zero_mul, Nat.zero_min, Nat.add_zero, List.drop_zero]
    rw [hbn, ← h2, List.take_length]
  have hlen : ∀ i, i < n → ((chunk_cards_equally deckL n).getD i []).length
      = if i < 64 % n then 64 / n + 1 else 64 / n := by
    intro i hi
    rw [hchunk, getD_map_range _ n i hi]
    rw [List.length_drop, List.length_take, h2]
    have hle : (i + 1) * (64 / n) + min (i + 1) (64 % n) ≤ 64 := by
      have h5 := hmono (show i + 1 ≤ n from hi)
      simp only at h5
      omega
    exact chunk_len_arith 64 (64 / n) (64 % n) i hle
  refine ⟨?_, hflat, ?_, hlen, ?_⟩
  · rw [hchunk, List.length_map, List.length_range]
  · intro s
    conv_rhs => rw [← hflat]
    rw [count_flatten_eq_sum]
  · intro i j hi hj
    rw [hlen i hi, hlen j hj]
    split_ifs <;> omega

/-- Witness for C6 at the concrete deck and three players. -/
theorem c6_deal_partition_witness :
    1 ≤ 3 ∧ deck.length = 64 ∧ (chunk_cards_equally deck 3).flatten = deck :=
  ⟨by decide, by decide, (c6_deal_partition deck 3 (by decide) (by decide)).2.1⟩

/-! ### Case analysis of `play_move` -/

theorem guess_attempt_action (current : String) (last : Move) (r : Response) :
    (guess_attempt current last r).action = "GUESS"
      ∨ (guess_attempt current last r).action = "FORFEIT" := by
  obtain ⟨a, t, c, cl, g, rs⟩ := r
  cases g with
  | none => right; rfl
  | some gv =>
      cases rs with
      | none => right; rfl
      | some rv =>
          cases hn : normalize_guess gv with
          | none => right; simp [guess_attempt, hn, errMove, mkMove]
          | some gs => left; simp [guess_attempt, hn, mkMove]

theorem play_move_opening_cases (current : String) (hand : Counter)
    (vt : List String) (resp? : Option Response) :
    ((play_move_opening current hand vt resp?).1.action = "PLAY"
        ∧ (play_move_opening current hand vt resp?).1.target ∈ vt)
      ∨ ((play_move_opening current hand vt resp?).1.action = "FORFEIT"
        ∧ (play_move_opening current hand vt resp?).2 = hand) := by
  cases resp? with
  | none => right; exact ⟨rfl, rfl⟩
  | some r =>
      obtain ⟨a, t, c, cl, g, rs⟩ := r
      cases c with
      | none => right; exact ⟨rfl, rfl⟩
      | some cv =>
          cases t with
          | none => right; exact ⟨rfl, rfl⟩
          | some tv =>
              cases cl with
              | none => right; exact ⟨rfl, rfl⟩
              | some clv =>
                  cases rs with
                  | none => right; exact ⟨rfl, rfl⟩
                  | some rsv =>
                      simp only [play_move_opening]
                      split_ifs with h1 h2 h3 h4
                      · left
                        refine ⟨by simp [mkMove], ?_⟩
                        simpa [mkMove] using h1
                      · right; exact ⟨by simp [errMove, mkMove], rfl⟩
                      · right; exact ⟨by simp [errMove, mkMove], rfl⟩
                      · right; exact ⟨by simp [errMove, mkMove], rfl⟩
                      · right; exact ⟨by simp [errMove, mkMove], rfl⟩

theorem play_move_forced_cases (current : String) (last : Move)
    (resp? : Option Response) :
    (play_move_forced current last resp?).action = "GUESS"
      ∨ (play_move_forced current last resp?).action = "FORFEIT" := by
  cases resp? with
  | none => right; rfl
  | some r => exact guess_attempt_action current last r

theorem play_move_mustpass_cases (current : String) (vt : List String)
    (last : Move) (resp? : Option Response) :
    ((play_move_mustpass current vt last resp?).action = "PASS"
        ∧ (play_move_mustpass current vt last resp?).target ∈ vt)
      ∨ (play_move_mustpass current vt last resp?).action = "FORFEIT" := by
  cases resp? with
  | none => right; rfl
  | some r =>
      obtain ⟨a, t, c, cl, g, rs⟩ := r
      cases t with
      | none => right; rfl
      | some tv =>
          cases cl with
          | none => right; rfl
          | some clv =>
              cases rs with
              | none => right; rfl
              | some rsv =>
                  simp only [play_move_mustpass]
                  split_ifs with h1 h2
                  · left
                    refine ⟨by simp [mkMove], ?_⟩
                    simpa [mkMove] using h1
                  · right; simp [errMove, mkMove]
                  · right; simp [errMove, mkMove]

theorem play_move_free_cases (current : String) (last : Move)
    (resp? : Option Response) :
    (play_move_free current last resp?).action = "LOOK"
      ∨ (play_move_free current last resp?).action = "GUESS"
      ∨ (play_move_free current last resp?).action = "FORFEIT" := by
  cases resp? with
  | none => right; right; rfl
  | some r =>
      simp only [play_move_free]
      split_ifs with ha
      · cases hr : r.reason with
        | none => right; right; simp [errMove, mkMove]
        | some rv => left; simp [mkMove]
      · rcases guess_attempt_action current last r with h | h
        · right; left; exact h
        · right; right; exact h

theorem play_move_action_cases (N : Nat) (current : String) (hand : Counter)
    (vt : List String) (history : List Move) (resp? : Option Response) :
    (play_move N current hand vt history resp?).1.action = "PLAY"
      ∨ (play_move N current hand vt history resp?).1.action = "PASS"
      ∨ (play_move N current hand vt history resp?).1.action = "LOOK"
      ∨ (play_move N current hand vt history resp?).1.action = "GUESS"
      ∨ (play_move N current hand vt history resp?).1.action = "FORFEIT" := by
  simp only [play_move]
  split_ifs with h1 h2 h3
  · rcases play_move_opening_cases current hand vt resp? with ⟨hp, _⟩ | ⟨hf, _⟩
    · exact Or.inl hp
    · exact Or.inr (Or.inr (Or.inr (Or.inr hf)))
  · rcases play_move_forced_cases current (history.getLastD defaultMove) resp? with h | h
    · exact Or.inr (Or.inr (Or.inr (Or.inl h)))
    · exact Or.inr (Or.inr (Or.inr (Or.inr h)))
  · rcases play_move_mustpass_cases current vt (history.getLastD defaultMove) resp?
        with ⟨hp, _⟩ | hf
    · exact Or.inr (Or.inl hp)
    · exact Or.inr (Or.inr (Or.inr (Or.inr hf)))
  · rcases play_move_free_cases current (history.getLastD defaultMove) resp? with h | h | h
    · exact Or.inr (Or.inr (Or.inl h))
    · exact Or.inr (Or.inr (Or.inr (Or.inl h)))
    · exact Or.inr (Or.inr (Or.inr (Or.inr h)))

theorem play_move_target_mem (N : Nat) (current : String) (hand : Counter)
    (vt : List String) (history : List Move) (resp? : Option Response)
    (h : (play_move N current hand vt history resp?).1.action = "PLAY"
      ∨ (play_move N current hand vt history resp?).1.action = "PASS") :
    (play_move N current hand vt history resp?).1.target ∈ vt := by
  simp only [play_move] at h ⊢
  split_ifs at h ⊢ with h1 h2 h3
  · rcases play_move_opening_cases current hand vt resp? with ⟨_, hm⟩ | ⟨hf, _⟩
    · exact hm
    · rcases h with h | h <;> rw [hf] at h <;> exact absurd h (by decide)
  · rcases play_move_forced_cases current (history.getLastD defaultMove) resp? with hg | hg <;>
      rcases h with h | h <;> rw [hg] at h <;> exact absurd h (by decide)
  · rcases play_move_mustpass_cases current vt (history.getLastD defaultMove) resp?
        with ⟨_, hm⟩ | hf
    · exact hm
    · rcases h with h | h <;> rw [hf] at h <;> exact absurd h (by decide)
  · rcases play_move_free_cases current (history.getLastD defaultMove) resp? with hg | hg | hg <;>
      rcases h with h | h <;> rw [hg] at h <;> exact absurd h (by decide)

theorem play_move_look_prev (N : Nat) (current : String) (hand : Counter)
    (vt : List String) (history : List Move) (resp? : Option Response)
    (h : (play_move N current hand vt history resp?).1.action = "LOOK") :
    (history.getLastD defaultMove).action ≠ "LOOK" := by
  simp only [play_move] at h
  split_ifs at h with h1 h2 h3
  · rcases play_move_opening_cases current hand vt resp? with ⟨hp, _⟩ | ⟨hf, _⟩ <;>
      [rw [hp] at h; rw [hf] at h] <;> exact absurd h (by decide)
  · rcases play_move_forced_cases current (history.getLastD defaultMove) resp? with hg | hg <;>
      rw [hg] at h <;> exact absurd h (by decide)
  · rcases play_move_mustpass_cases current vt (history.getLastD defaultMove) resp?
        with ⟨hp, _⟩ | hf <;> [rw [hp] at h; rw [hf] at h] <;> exact absurd h (by decide)
  · exact h3

/-! ### One-step unfolding of `play_round_loop` -/

theorem loop_step_continue (N : Nat) (agent : Nat → Option Response)
    (pick : List String → String) (fuel : Nat) (st : RoundState)
    (m : Move) (hnd : Counter)
    (hm : play_move N st.current ((alookup st.hands st.current).getD [])
        st.valid_targets st.history (agent st.history.length) = (m, hnd))
    (h : m.action = "PLAY" ∨ m.action = "PASS") :
    play_round_loop N agent pick (fuel + 1) st =
      play_round_loop N agent pick fuel
        { hands := aset st.hands st.current hnd, revealed := st.revealed,
          current := m.target,
          valid_targets := st.valid_targets.filter (fun p => p ≠ m.target),
          history := st.history ++ [m] } := by
  simp only [play_round_loop, hm, if_pos h]

theorem loop_step_look (N : Nat) (agent : Nat → Option Response)
    (pick : List String → String) (fuel : Nat) (st : RoundState)
    (m : Move) (hnd : Counter)
    (hm : play_move N st.current ((alookup st.hands st.current).getD [])
        st.valid_targets st.history (agent st.history.length) = (m, hnd))
    (h : m.action = "LOOK") :
    play_round_loop N agent pick (fuel + 1) st =
      play_round_loop N agent pick fuel
        { hands := aset st.hands st.current hnd, revealed := st.revealed,
          current := st.current, valid_targets := st.valid_targets,
          history := st.history ++ [m] } := by
  have h1 : ¬ (m.action = "PLAY" ∨ m.action = "PASS") := by rw [h]; decide
  have h2 : ¬ (m.action = "GUESS") := by rw [h]; decide
  have h3 : ¬ (m.action = "FORFEIT") := by rw [h]; decide
  simp only [play_round_loop, hm, if_neg h1, if_neg h2, if_neg h3]

theorem loop_step_guess (N : Nat) (agent : Nat → Option Response)
    (pick : List String → String) (fuel : Nat) (st : RoundState)
    (m : Move) (hnd : Counter)
    (hm : play_move N st.current ((alookup st.hands st.current).getD [])
        st.valid_targets st.history (agent st.history.length) = (m, hnd))
    (h : m.action = "GUESS") :
    play_round_loop N agent pick (fuel + 1) st =
      some ((resolve_guess st.revealed m).1,
        { hands := aset st.hands st.current hnd,
          revealed := (resolve_guess st.revealed m).2,
          current := (resolve_guess st.revealed m).1,
          valid_targets := st.valid_targets,
          history := st.history ++ [m] }) := by
  have h1 : ¬ (m.action = "PLAY" ∨ m.action = "PASS") := by rw [h]; decide
  simp only [play_round_loop, hm, if_neg h1, if_pos h]

theorem loop_step_forfeit (N : Nat) (agent : Nat → Option Response)
    (pick : List String → String) (fuel : Nat) (st : RoundState)
    (m : Move) (hnd : Counter)
    (hm : play_move N st.current ((alookup st.hands st.current).getD [])
        st.valid_targets st.history (agent st.history.length) = (m, hnd))
    (h : m.action = "FORFEIT") :
    ∃ m2 hands2, m2.action = "FORFEIT" ∧ m2.player = m.player ∧
      play_round_loop N agent pick (fuel + 1) st =
        some (m2.player,
          { hands := hands2,
            revealed := aset st.revealed m2.player
              (counterIncr ((alookup st.revealed m2.player).getD []) m2.card),
            current := m2.player, valid_targets := st.valid_targets,
            history := st.history ++ [m2] }) := by
  have h1 : ¬ (m.action = "PLAY" ∨ m.action = "PASS") := by rw [h]; decide
  have h2 : ¬ (m.action = "GUESS") := by rw [h]; decide
  by_cases hc : m.card = ""
  · refine ⟨{ m with card := pick (counterKeys
        ((alookup (aset st.hands st.current hnd) st.current).getD [])) },
      aset (aset st.hands st.current hnd) st.current
        (counterDecr ((alookup (aset st.hands st.current hnd) st.current).getD [])
          (pick (counterKeys ((alookup (aset st.hands st.current hnd) st.current).getD [])))),
      h, rfl, ?_⟩
    simp only [play_round_loop, hm, if_neg h1, if_neg h2, if_pos h, if_pos hc]
  · refine ⟨m, aset st.hands st.current hnd, h, rfl, ?_⟩
    simp only [play_round_loop, hm, if_neg h1, if_neg h2, if_pos h, if_neg hc]

/-! ### Round termination and shape (claim C9) -/

/-- A move that never ends a round. -/
def nonterminal (m : Move) : Prop :=
  m.action = "PLAY" ∨ m.action = "PASS" ∨ m.action = "LOOK"

theorem headD_append_left (l t : List Move) (d : Move) (h : l ≠ []) :
    (l ++ t).headD d = l.headD d := by
  cases l with
  | nil => exact absurd rfl h
  | cons a l => rfl

theorem filter_ne_length_lt (l : List String) (t : String) (h : t ∈ l) :
    (l.filter (fun p => p ≠ t)).length < l.length := by
  induction l with
  | nil => cases h
  | cons a l ih =>
      by_cases ha : a = t
      · subst ha
        have h1 : (l.filter (fun p => p ≠ a)).length ≤ l.length :=
          List.length_filter_le _ l
        simp only [List.filter_cons, decide_eq_true_eq, List.length_cons]
        rw [if_neg (by simp)]
        omega
      · have ht : t ∈ l := by
          rcases List.mem_cons.mp h with h1 | h1
          · exact absurd h1.symm ha
          · exact h1
        simp only [List.filter_cons, decide_eq_true_eq, List.length_cons]
        rw [if_pos (by simp [ha])]
        have h2 := ih ht
        simp only [List.length_cons]
        omega

theorem play_move_opening_phase (N : Nat) (current : String) (hand : Counter)
    (vt : List String) (history : List Move) (resp? : Option Response)
    (h : vt.length = N - 1) :
    (play_move N current hand vt history resp?).1.action = "PLAY"
      ∨ (play_move N current hand vt history resp?).1.action = "FORFEIT" := by
  simp only [play_move, if_pos h]
  rcases play_move_opening_cases current hand vt resp? with ⟨hp, _⟩ | ⟨hf, _⟩
  · exact Or.inl hp
  · exact Or.inr hf

theorem loop_main (N : Nat) (agent : Nat → Option Response)
    (pick : List String → String) (fuel : Nat) :
    ∀ st : RoundState,
      2 * st.valid_targets.length
          + (if (st.history.getLastD defaultMove).action = "LOOK" then 1 else 2) ≤ fuel →
      (∀ m ∈ st.history, nonterminal m) →
      (st.history = [] → st.valid_targets.length = N - 1) →
      (st.history ≠ [] → (st.history.headD defaultMove).action = "PLAY") →
      ∃ loser st', play_round_loop N agent pick fuel st = some (loser, st') ∧
        st'.history ≠ [] ∧
        (∀ m ∈ st'.history.dropLast, nonterminal m) ∧
        ((st'.history.getLastD defaultMove).action = "GUESS"
          ∨ (st'.history.getLastD defaultMove).action = "FORFEIT") ∧
        ((st'.history.headD defaultMove).action = "PLAY"
          ∨ (st'.history.headD defaultMove).action = "FORFEIT") := by
  induction fuel with
  | zero =>
      intro st hbound _ _ _
      exfalso
      by_cases hL : (st.history.getLastD defaultMove).action = "LOOK"
      · rw [if_pos hL] at hbound; omega
      · rw [if_neg hL] at hbound; omega
  | succ fuel ih =>
      intro st hbound hnt hemp hhead
      obtain ⟨m, hnd, hm⟩ : ∃ m hnd,
          play_move N st.current ((alookup st.hands st.current).getD [])
            st.valid_targets st.history (agent st.history.length) = (m, hnd) :=
        ⟨_, _, rfl⟩
      have hcases : m.action = "PLAY" ∨ m.action = "PASS" ∨ m.action = "LOOK"
          ∨ m.action = "GUESS" ∨ m.action = "FORFEIT" := by
        have h0 := play_move_action_cases N st.current
          ((alookup st.hands st.current).getD []) st.valid_targets st.history
          (agent st.history.length)
        rwa [hm] at h0
      have hopening : st.history = [] → (m.action = "PLAY" ∨ m.action = "FORFEIT") := by
        intro hE
        have h0 := play_move_opening_phase N st.current
          ((alookup st.hands st.current).getD []) st.valid_targets st.history
          (agent st.history.length) (hemp hE)
        rwa [hm] at h0
      by_cases hPP : m.action = "PLAY" ∨ m.action = "PASS"
      · -- PLAY or PASS: the target pool strictly shrinks
        have htgt : m.target ∈ st.valid_targets := by
          have h0 := play_move_target_mem N st.current
            ((alookup st.hands st.current).getD []) st.valid_targets st.history
            (agent st.history.length) (by rw [hm]; exact hPP)
          rwa [hm] at h0
        rw [loop_step_continue N agent pick fuel st m hnd hm hPP]
        have hb2 : 2 * st.valid_targets.length ≤ fuel := by
          by_cases hL : (st.history.getLastD defaultMove).action = "LOOK"
          · have := hbound; rw [if_pos hL] at this; omega
          · have := hbound; rw [if_neg hL] at this; omega
        apply ih
        · show 2 * (st.valid_targets.filter (fun p => p ≠ m.target)).length
              + (if ((st.history ++ [m]).getLastD defaultMove).action = "LOOK" then 1 else 2)
              ≤ fuel
          rw [List.getLastD_concat]
          have hmne : m.action ≠ "LOOK" := by
            rcases hPP with h | h <;> rw [h] <;> decide
          rw [if_neg hmne]
          have hlt := filter_ne_length_lt st.valid_targets m.target htgt
          omega
        · intro x hx
          rcases List.mem_append.mp hx with hx | hx
          · exact hnt x hx
          · have hxm : x = m := by simpa using hx
            subst hxm
            rcases hPP with h | h
            · exact Or.inl h
            · exact Or.inr (Or.inl h)
        · intro hE
          exact absurd hE (by simp)
        · intro _
          show ((st.history ++ [m]).headD defaultMove).action = "PLAY"
          by_cases hE : st.history = []
          · rw [hE]
            simp only [List.nil_append, List.headD_cons]
            rcases hopening hE with hq | hq
            · exact hq
            · rcases hPP with h | h <;> rw [hq] at h <;> exact absurd h (by decide)
          · rw [headD_append_left st.history [m] defaultMove hE]
            exact hhead hE
      · rcases hcases with h | h | h | h | h
        · exact absurd (Or.inl h) hPP
        · exact absurd (Or.inr h) hPP
        · -- LOOK: the previous move was not a LOOK, so the measure drops
          have hprev : (st.history.getLastD defaultMove).action ≠ "LOOK" := by
            apply play_move_look_prev N st.current
              ((alookup st.hands st.current).getD []) st.valid_targets st.history
              (agent st.history.length)
            rw [hm]; exact h
          rw [loop_step_look N agent pick fuel st m hnd hm h]
          apply ih
          · show 2 * st.valid_targets.length
                + (if ((st.history ++ [m]).getLastD defaultMove).action = "LOOK" then 1 else 2)
                ≤ fuel
            rw [List.getLastD_concat, if_pos h]
            rw [if_neg hprev] at hbound
            omega
          · intro x hx
            rcases List.mem_append.mp hx with hx | hx
            · exact hnt x hx
            · have hxm : x = m := by simpa using hx
              subst hxm
              exact Or.inr (Or.inr h)
          · intro hE
            exact absurd hE (by simp)
          · intro _
            by_cases hE : st.history = []
            · exfalso
              rcases hopening hE with hq | hq <;> rw [hq] at h <;> exact absurd h (by decide)
            · show ((st.history ++ [m]).headD defaultMove).action = "PLAY"
              rw [headD_append_left st.history [m] defaultMove hE]
              exact hhead hE
        · -- GUESS ends the round
          rw [loop_step_guess N agent pick fuel st m hnd hm h]
          refine ⟨_, _, rfl, ?_, ?_, ?_, ?_⟩
          · show st.history ++ [m] ≠ []
            simp
          · show ∀ x ∈ (st.history ++ [m]).dropLast, nonterminal x
            rw [List.dropLast_concat]
            exact hnt
          · show ((st.history ++ [m]).getLastD defaultMove).action = "GUESS"
                ∨ ((st.history ++ [m]).getLastD defaultMove).action = "FORFEIT"
            rw [List.getLastD_concat]
            exact Or.inl h
          · by_cases hE : st.history = []
            · exfalso
              rcases hopening hE with hq | hq <;> rw [hq] at h <;> exact absurd h (by decide)
            · left
              show ((st.history ++ [m]).headD defaultMove).action = "PLAY"
              rw [headD_append_left st.history [m] defaultMove hE]
              exact hhead hE
        · -- FORFEIT ends the round (possibly after backfilling the card)
          obtain ⟨m2, hands2, hm2f, _, heq⟩ :=
            loop_step_forfeit N agent pick fuel st m hnd hm h
          rw [heq]
          refine ⟨_, _, rfl, ?_, ?_, ?_, ?_⟩
          · show st.history ++ [m2] ≠ []
            simp
          · show ∀ x ∈ (st.history ++ [m2]).dropLast, nonterminal x
            rw [List.dropLast_concat]
            exact hnt
          · show ((st.history ++ [m2]).getLastD defaultMove).action = "GUESS"
                ∨ ((st.history ++ [m2]).getLastD defaultMove).action = "FORFEIT"
            rw [List.getLastD_concat]
            exact Or.inr hm2f
          · by_cases hE : st.history = []
            · right
              show ((st.history ++ [m2]).headD defaultMove).action = "FORFEIT"
              rw [hE]
              simpa using hm2f
            · left
              show ((st.history ++ [m2]).headD defaultMove).action = "PLAY"
              rw [headD_append_left st.history [m2] defaultMove hE]
              exact hhead hE

/-- Claim C9: with fuel `2 * |targets| + 2` (as provided by `play_round`),
a round started with an empty history and a full target pool always
terminates; the resulting history is nonempty, every non-final move is a
PLAY, PASS or LOOK (so PLAY/PASS/LOOK never end a round and exactly one
terminal move exists), the final move is a GUESS or FORFEIT, and the
first move is a PLAY (or a FORFEIT when the opening PLAY failed
validation). -/
theorem c9_round_shape (N : Nat) (agent : Nat → Option Response)
    (pick : List String → String) (st : RoundState) (fuel : Nat)
    (hfuel : 2 * st.valid_targets.length + 2 ≤ fuel)
    (hhist : st.history = [])
    (htgt : st.valid_targets.length = N - 1) :
    ∃ loser st', play_round_loop N agent pick fuel st = some (loser, st') ∧
      st'.history ≠ [] ∧
      (∀ m ∈ st'.history.dropLast,
        m.action = "PLAY" ∨ m.action = "PASS" ∨ m.action = "LOOK") ∧
      ((st'.history.getLastD defaultMove).action = "GUESS"
        ∨ (st'.history.getLastD defaultMove).action = "FORFEIT") ∧
      ((st'.history.headD defaultMove).action = "PLAY"
        ∨ (st'.history.headD defaultMove).action = "FORFEIT") := by
  apply loop_main N agent pick fuel st
  · by_cases hL : (st.history.getLastD defaultMove).action = "LOOK"
    · rw [if_pos hL]; omega
    · rw [if_neg hL]; omega
  · intro m hm
    rw [hhist] at hm
    simp at hm
  · intro _; exact htgt
  · intro hne; exact absurd hhist hne

/-- Witness for C9: two seats, an agent that always fails to answer; the
round is a single opening FORFEIT. -/
theorem c9_round_shape_witness :
    ∃ loser st',
      play_round_loop 2 (fun _ => none) (fun l => l.headD "") 4
        ⟨[("A", [("BAT", 1)]), ("B", [("FLY", 1)])],
          [("A", []), ("B", [])], "A", ["B"], []⟩ = some (loser, st') ∧
      st'.history ≠ [] ∧
      (∀ m ∈ st'.history.dropLast,
        m.action = "PLAY" ∨ m.action = "PASS" ∨ m.action = "LOOK") ∧
      ((st'.history.getLastD defaultMove).action = "GUESS"
        ∨ (st'.history.getLastD defaultMove).action = "FORFEIT") ∧
      ((st'.history.headD defaultMove).action = "PLAY"
        ∨ (st'.history.headD defaultMove).action = "FORFEIT") :=
  c9_round_shape 2 (fun _ => none) (fun l => l.headD "") _ 4
    (by decide) rfl (by decide)

/-! ### GUESS resolution (claim C2) -/

theorem resolve_guess_eq (revealed : List (String × Counter)) (m : Move) :
    (resolve_guess revealed m).1
        = (if ((m.guess = "TRUE") ↔ (m.card = m.claim)) then m.target else m.player)
      ∧ (resolve_guess revealed m).2
        = aset revealed (resolve_guess revealed m).1
            (counterIncr ((alookup revealed (resolve_guess revealed m).1).getD [])
              m.card) := by
  by_cases hg : m.guess = "TRUE" <;> by_cases hc : m.card = m.claim <;>
    simp [resolve_guess, hg, hc]

/-- Claim C2: whenever the move produced in an iteration of the round
loop is a GUESS, the round ends immediately; it is correct iff
`(guess = TRUE) ↔ (card = claim)`; when correct the claimant
(`m.target`, the maker of the most recent PLAY/PASS, whose player, card
and claim were copied into the GUESS move) loses the round, takes the
card (exactly one more of that type in their revealed pile) and becomes
the next current player; when incorrect the guesser (`m.player`) does. -/
theorem c2_guess_resolution (N : Nat) (agent : Nat → Option Response)
    (pick : List String → String) (fuel : Nat) (st : RoundState)
    (m : Move) (hnd : Counter)
    (hm : play_move N st.current ((alookup st.hands st.current).getD [])
        st.valid_targets st.history (agent st.history.length) = (m, hnd))
    (hg : m.action = "GUESS") :
    ∃ st',
      play_round_loop N agent pick (fuel + 1) st =
        some ((if ((m.guess = "TRUE") ↔ (m.card = m.claim)) then m.target else m.player),
          st')
      ∧ st'.current
          = (if ((m.guess = "TRUE") ↔ (m.card = m.claim)) then m.target else m.player)
      ∧ counterGet ((alookup st'.revealed st'.current).getD []) m.card
          = counterGet ((alookup st.revealed st'.current).getD []) m.card + 1
      ∧ st'.history = st.history ++ [m] := by
  have hstep := loop_step_guess N agent pick fuel st m hnd hm hg
  obtain ⟨h1, h2⟩ := resolve_guess_eq st.revealed m
  refine ⟨{ hands := aset st.hands st.current hnd,
            revealed := (resolve_guess st.revealed m).2,
            current := (resolve_guess st.revealed m).1,
            valid_targets := st.valid_targets,
            history := st.history ++ [m] }, ?_, ?_, ?_, rfl⟩
  · rw [hstep, h1]
  · exact h1
  · show counterGet ((alookup (resolve_guess st.revealed m).2
        (resolve_guess st.revealed m).1).getD []) m.card
      = counterGet ((alookup st.revealed (resolve_guess st.revealed m).1).getD [])
          m.card + 1
    rw [h2, alookup_aset_self]
    simp only [Option.getD_some]
    exact counterGet_incr_self _ m.card

/-- Witness for C2: seat B guesses TRUE on a lying PLAY (card COCKROACH
claimed as BAT), so the guess is incorrect and B takes the card. -/
theorem c2_guess_resolution_witness :
    ∃ st',
      play_round_loop 2
        (fun _ => some ⟨some "GUESS", none, none, some "NONE",
          some (GuessVal.str "TRUE"), some "r"⟩)
        (fun l => l.headD "") 1
        ⟨[("B", [("FLY", 1)])], [("A", []), ("B", [])], "B", [],
          [mkMove "A" "PLAY" (some "B") (some "COCKROACH") (some "BAT") none (some "r")]⟩
        = some ((if (((mkMove "B" "GUESS" (some "A") (some "COCKROACH") (some "BAT")
            (some "TRUE") (some "r")).guess = "TRUE")
            ↔ ((mkMove "B" "GUESS" (some "A") (some "COCKROACH") (some "BAT")
              (some "TRUE") (some "r")).card
              = (mkMove "B" "GUESS" (some "A") (some "COCKROACH") (some "BAT")
                (some "TRUE") (some "r")).claim))
          then (mkMove "B" "GUESS" (some "A") (some "COCKROACH") (some "BAT")
            (some "TRUE") (some "r")).target
          else (mkMove "B" "GUESS" (some "A") (some "COCKROACH") (some "BAT")
            (some "TRUE") (some "r")).player), st')
      ∧ st'.current
          = (if (((mkMove "B" "GUESS" (some "A") (some "COCKROACH") (some "BAT")
              (some "TRUE") (some "r")).guess = "TRUE")
              ↔ ((mkMove "B" "GUESS" (some "A") (some "COCKROACH") (some "BAT")
                (some "TRUE") (some "r")).card
                = (mkMove "B" "GUESS" (some "A") (some "COCKROACH") (some "BAT")
                  (some "TRUE") (some "r")).claim))
            then (mkMove "B" "GUESS" (some "A") (some "COCKROACH") (some "BAT")
              (some "TRUE") (some "r")).target
            else (mkMove "B" "GUESS" (some "A") (some "COCKROACH") (some "BAT")
              (some "TRUE") (some "r")).player)
      ∧ counterGet ((alookup st'.revealed st'.current).getD [])
           (mkMove "B" "GUESS" (some "A") (some "COCKROACH") (some "BAT")
             (some "TRUE") (some "r")).card
          = counterGet ((alookup [("A", ([] : Counter)), ("B", ([] : Counter))]
              st'.current).getD [])
              (mkMove "B" "GUESS" (some "A") (some "COCKROACH") (some "BAT")
                (some "TRUE") (some "r")).card + 1
      ∧ st'.history
          = [mkMove "A" "PLAY" (some "B") (some "COCKROACH") (some "BAT") none (some "r")]
            ++ [mkMove "B" "GUESS" (some "A") (some "COCKROACH") (some "BAT")
              (some "TRUE") (some "r")] :=
  c2_guess_resolution 2
    (fun _ => some ⟨some "GUESS", none, none, some "NONE",
      some (GuessVal.str "TRUE"), some "r"⟩)
    (fun l => l.headD "") 0
    ⟨[("B", [("FLY", 1)])], [("A", []), ("B", [])], "B", [],
      [mkMove "A" "PLAY" (some "B") (some "COCKROACH") (some "BAT") none (some "r")]⟩
    (mkMove "B" "GUESS" (some "A") (some "COCKROACH") (some "BAT")
      (some "TRUE") (some "r"))
    [("FLY", 1)] (by decide) (by decide)

/-! ### Validator characterizations (claims C7, C8, C10) -/

theorem guess_attempt_spec (current : String) (last : Move) (r : Response) :
    ((guess_attempt current last r).action = "GUESS"
      ↔ ∃ g rs, r.guess = some g ∧ r.reason = some rs ∧ (normalize_guess g).isSome)
    ∧ ((guess_attempt current last r).action = "GUESS"
      ∨ (guess_attempt current last r).action = "FORFEIT") := by
  obtain ⟨a, t, c, cl, g, rs⟩ := r
  cases g with
  | none => simp [guess_attempt, errMove, mkMove]
  | some gv =>
      cases rs with
      | none => simp [guess_attempt, errMove, mkMove]
      | some rv =>
          cases hn : normalize_guess gv with
          | none => simp [guess_attempt, hn, errMove, mkMove]
          | some gs => simp [guess_attempt, hn, mkMove]

/-- Claim C7: with an empty remaining-target pool (and at least two
players, so the opening branch is not taken), the move produced is a
GUESS exactly when the reply exists, has the `guess` and `reason` keys,
and its guess value normalizes to TRUE/FALSE (boolean-like input
accepted); every other proposal becomes a FORFEIT, and in particular no
proposal is ever accepted as a LOOK in this phase. -/
theorem c7_forced_terminal (N : Nat) (current : String) (hand : Counter)
    (history : List Move) (resp? : Option Response) (hN : 2 ≤ N) :
    ((play_move N current hand [] history resp?).1.action = "GUESS"
      ∨ (play_move N current hand [] history resp?).1.action = "FORFEIT")
    ∧ ((play_move N current hand [] history resp?).1.action = "GUESS"
      ↔ ∃ r g rs, resp? = some r ∧ r.guess = some g ∧ r.reason = some rs
          ∧ (normalize_guess g).isSome)
    ∧ (play_move N current hand [] history resp?).1.action ≠ "LOOK" := by
  have hne0 : ¬ ((0 : Nat) = N - 1) := by omega
  have hd : play_move N current hand [] history resp?
      = (play_move_forced current (history.getLastD defaultMove) resp?, hand) := by
    simp [play_move, hne0]
  rw [hd]
  cases resp? with
  | none =>
      refine ⟨Or.inr rfl, ?_, ?_⟩
      · simp [play_move_forced, errMove, mkMove]
      · simp [play_move_forced, errMove, mkMove]
  | some r =>
      obtain ⟨hiff, hor⟩ := guess_attempt_spec current (history.getLastD defaultMove) r
      refine ⟨hor, ?_, ?_⟩
      · show (guess_attempt current (history.getLastD defaultMove) r).action = "GUESS" ↔ _
        rw [hiff]
        constructor
        · rintro ⟨g, rs, h1, h2, h3⟩
          exact ⟨r, g, rs, rfl, h1, h2, h3⟩
        · rintro ⟨r2, g, rs, hr, h1, h2, h3⟩
          injection hr with hr2
          subst hr2
          exact ⟨g, rs, h1, h2, h3⟩
      · intro hL
        have hL2 : (guess_attempt current (history.getLastD defaultMove) r).action
            = "LOOK" := hL
        rcases hor with h | h <;>
          exact absurd (hL2.symm.trans h) (by decide)

/-- Witness for C7: three players, a proposal that tries to LOOK in the
forced-terminal phase and carries no guess; it is forfeited, not
accepted. -/
theorem c7_forced_terminal_witness :
    ((play_move 3 "B" [] [] []
        (some ⟨some "LOOK", none, none, none, none, some "r"⟩)).1.action = "GUESS"
      ∨ (play_move 3 "B" [] [] []
        (some ⟨some "LOOK", none, none, none, none, some "r"⟩)).1.action = "FORFEIT")
    ∧ ((play_move 3 "B" [] [] []
        (some ⟨some "LOOK", none, none, none, none, some "r"⟩)).1.action = "GUESS"
      ↔ ∃ r g rs, (some (⟨some "LOOK", none, none, none, none, some "r"⟩ : Response))
            = some r ∧ r.guess = some g ∧ r.reason = some rs
          ∧ (normalize_guess g).isSome)
    ∧ (play_move 3 "B" [] [] []
        (some ⟨some "LOOK", none, none, none, none, some "r"⟩)).1.action ≠ "LOOK" :=
  c7_forced_terminal 3 "B" [] []
    (some ⟨some "LOOK", none, none, none, none, some "r"⟩) (by decide)

/-- Claim C8: in the opening phase (`|targets| = N - 1`) a proposal with
all four required keys present is converted to FORFEIT exactly when the
target is not in the legal pool, the card or the claim is not one of the
8 types, or the hand count of the card is below 1; an accepted proposal
yields a PLAY recording the proposed target/card/claim whose card is
decremented from the hand; a rejected one leaves the hand unchanged. -/
theorem c8_opening_legality (N : Nat) (current : String) (hand : Counter)
    (vt : List String) (history : List Move)
    (a : Option String) (gv : Option GuessVal) (t c cl rs : String)
    (hph : vt.length = N - 1) :
    ((play_move N current hand vt history
        (some ⟨a, some t, some c, some cl, gv, some rs⟩)).1.action = "PLAY"
      ∨ (play_move N current hand vt history
        (some ⟨a, some t, some c, some cl, gv, some rs⟩)).1.action = "FORFEIT")
    ∧ ((play_move N current hand vt history
        (some ⟨a, some t, some c, some cl, gv, some rs⟩)).1.action = "FORFEIT"
      ↔ (t ∉ vt ∨ c ∉ types ∨ cl ∉ types ∨ counterGet hand c < 1))
    ∧ ((play_move N current hand vt history
        (some ⟨a, some t, some c, some cl, gv, some rs⟩)).1.action = "PLAY" →
        (play_move N current hand vt history
          (some ⟨a, some t, some c, some cl, gv, some rs⟩)).2 = counterDecr hand c
        ∧ counterGet (play_move N current hand vt history
            (some ⟨a, some t, some c, some cl, gv, some rs⟩)).2 c
            = counterGet hand c - 1
        ∧ (play_move N current hand vt history
            (some ⟨a, some t, some c, some cl, gv, some rs⟩)).1.card = c
        ∧ (play_move N current hand vt history
            (some ⟨a, some t, some c, some cl, gv, some rs⟩)).1.target = t
        ∧ (play_move N current hand vt history
            (some ⟨a, some t, some c, some cl, gv, some rs⟩)).1.claim = cl)
    ∧ ((play_move N current hand vt history
        (some ⟨a, some t, some c, some cl, gv, some rs⟩)).1.action = "FORFEIT" →
        (play_move N current hand vt history
          (some ⟨a, some t, some c, some cl, gv, some rs⟩)).2 = hand) := by
  have hcg : ¬ (counterContains hand c ∧ 1 ≤ counterGet hand c)
      → counterGet hand c < 1 := by
    intro hno
    by_cases hct : counterContains hand c
    · by_contra hge
      exact hno ⟨hct, by omega⟩
    · have h0 := counterGet_eq_zero_of_not_contains hand c
        (by simpa using hct)
      omega
  have hcg2 : counterGet hand c < 1
      → ¬ (counterContains hand c ∧ 1 ≤ counterGet hand c) := by
    rintro hlt ⟨_, hge⟩
    omega
  have hd : play_move N current hand vt history
      (some ⟨a, some t, some c, some cl, gv, some rs⟩)
      = play_move_opening current hand vt
        (some ⟨a, some t, some c, some cl, gv, some rs⟩) := by
    simp only [play_move, if_pos hph]
  rw [hd]
  show ((play_move_opening current hand vt
      (some ⟨a, some t, some c, some cl, gv, some rs⟩)).1.action = "PLAY" ∨ _) ∧ _
  simp only [play_move_opening]
  split_ifs with hT hC hH hCl
  · refine ⟨Or.inl (by simp [mkMove]), ?_, ?_, ?_⟩
    · constructor
      · intro hFa
        simp [mkMove] at hFa
      · rintro (h | h | h | h)
        · exact absurd hT h
        · exact absurd hC h
        · exact absurd hCl h
        · exact absurd h (by have := hH.2; omega)
    · intro _
      exact ⟨rfl, counterGet_decr_self hand c, by simp [mkMove],
        by simp [mkMove], by simp [mkMove]⟩
    · intro hFa
      simp [mkMove] at hFa
  · refine ⟨Or.inr (by simp [errMove, mkMove]), ?_, ?_, fun _ => rfl⟩
    · constructor
      · intro _
        exact Or.inr (Or.inr (Or.inl hCl))
      · intro _
        simp [errMove, mkMove]
    · intro hPl
      simp [errMove, mkMove] at hPl
  · refine ⟨Or.inr (by simp [errMove, mkMove]), ?_, ?_, fun _ => rfl⟩
    · constructor
      · intro _
        exact Or.inr (Or.inr (Or.inr (hcg hH)))
      · intro _
        simp [errMove, mkMove]
    · intro hPl
      simp [errMove, mkMove] at hPl
  · refine ⟨Or.inr (by simp [errMove, mkMove]), ?_, ?_, fun _ => rfl⟩
    · constructor
      · intro _
        exact Or.inr (Or.inl hC)
      · intro _
        simp [errMove, mkMove]
    · intro hPl
      simp [errMove, mkMove] at hPl
  · refine ⟨Or.inr (by simp [errMove, mkMove]), ?_, ?_, fun _ => rfl⟩
    · constructor
      · intro _
        exact Or.inl hT
      · intro _
        simp [errMove, mkMove]
    · intro hPl
      simp [errMove, mkMove] at hPl

/-- Witness for C8: three players, a PLAY of a held COCKROACH claimed as
a BAT to a legal target; the proposal is accepted and the hand
decremented. -/
theorem c8_opening_legality_witness :
    ((play_move 3 "A" [("COCKROACH", 2)] ["B", "C"] []
        (some ⟨none, some "B", some "COCKROACH", some "BAT", none, some "r"⟩)).1.action
          = "PLAY"
      ∨ (play_move 3 "A" [("COCKROACH", 2)] ["B", "C"] []
        (some ⟨none, some "B", some "COCKROACH", some "BAT", none, some "r"⟩)).1.action
          = "FORFEIT")
    ∧ ((play_move 3 "A" [("COCKROACH", 2)] ["B", "C"] []
        (some ⟨none, some "B", some "COCKROACH", some "BAT", none, some "r"⟩)).1.action
          = "FORFEIT"
      ↔ ("B" ∉ (["B", "C"] : List String) ∨ "COCKROACH" ∉ types ∨ "BAT" ∉ types
          ∨ counterGet [("COCKROACH", 2)] "COCKROACH" < 1))
    ∧ ((play_move 3 "A" [("COCKROACH", 2)] ["B", "C"] []
        (some ⟨none, some "B", some "COCKROACH", some "BAT", none, some "r"⟩)).1.action
          = "PLAY" →
        (play_move 3 "A" [("COCKROACH", 2)] ["B", "C"] []
          (some ⟨none, some "B", some "COCKROACH", some "BAT", none, some "r"⟩)).2
            = counterDecr [("COCKROACH", 2)] "COCKROACH"
        ∧ counterGet (play_move 3 "A" [("COCKROACH", 2)] ["B", "C"] []
            (some ⟨none, some "B", some "COCKROACH", some "BAT", none, some "r"⟩)).2
            "COCKROACH" = counterGet [("COCKROACH", 2)] "COCKROACH" - 1
        ∧ (play_move 3 "A" [("COCKROACH", 2)] ["B", "C"] []
            (some ⟨none, some "B", some "COCKROACH", some "BAT", none, some "r"⟩)).1.card
              = "COCKROACH"
        ∧ (play_move 3 "A" [("COCKROACH", 2)] ["B", "C"] []
            (some ⟨none, some "B", some "COCKROACH", some "BAT", none, some "r"⟩)).1.target
              = "B"
        ∧ (play_move 3 "A" [("COCKROACH", 2)] ["B", "C"] []
            (some ⟨none, some "B", some "COCKROACH", some "BAT", none, some "r"⟩)).1.claim
              = "BAT")
    ∧ ((play_move 3 "A" [("COCKROACH", 2)] ["B", "C"] []
        (some ⟨none, some "B", some "COCKROACH", some "BAT", none, some "r"⟩)).1.action
          = "FORFEIT" →
        (play_move 3 "A" [("COCKROACH", 2)] ["B", "C"] []
          (some ⟨none, some "B", some "COCKROACH", some "BAT", none, some "r"⟩)).2
            = [("COCKROACH", 2)]) :=
  c8_opening_legality 3 "A" [("COCKROACH", 2)] ["B", "C"] []
    none none "B" "COCKROACH" "BAT" "r" (by decide)

/-- Claim C10: in the free-choice phase, any reply whose `action` field
is not exactly the string LOOK — missing, lowercase, or any other value —
is processed as a guess attempt: it yields a GUESS move exactly when the
`guess` and `reason` keys are present and the guess value normalizes, and
a FORFEIT otherwise; the `action` value is never validated against the
set of legal actions. -/
theorem c10_free_choice_action (N : Nat) (current : String) (hand : Counter)
    (vt : List String) (history : List Move) (r : Response)
    (h1 : ¬ vt.length = N - 1) (h2 : ¬ vt.length = 0)
    (h3 : ¬ (history.getLastD defaultMove).action = "LOOK")
    (ha : ¬ r.action = some "LOOK") :
    (play_move N current hand vt history (some r)).1
        = guess_attempt current (history.getLastD defaultMove) r
    ∧ ((play_move N current hand vt history (some r)).1.action = "GUESS"
        ↔ ∃ g rs, r.guess = some g ∧ r.reason = some rs ∧ (normalize_guess g).isSome)
    ∧ ((play_move N current hand vt history (some r)).1.action = "GUESS"
        ∨ (play_move N current hand vt history (some r)).1.action = "FORFEIT") := by
  have hd : (play_move N current hand vt history (some r)).1
      = play_move_free current (history.getLastD defaultMove) (some r) := by
    simp only [play_move, if_neg h1, if_neg h2, if_neg h3]
  have hfree : play_move_free current (history.getLastD defaultMove) (some r)
      = guess_attempt current (history.getLastD defaultMove) r := by
    simp only [play_move_free, if_neg ha]
  obtain ⟨hiff, hor⟩ := guess_attempt_spec current (history.getLastD defaultMove) r
  rw [hd, hfree]
  exact ⟨rfl, hiff, hor⟩

/-- Witness for C10: the reply says action PASS (not a legal value for
this phase) yet carries a valid lowercase guess and is turned into a
GUESS move. -/
theorem c10_free_choice_action_witness :
    (play_move 3 "B" [] ["C"]
        [mkMove "A" "PLAY" (some "B") (some "COCKROACH") (some "BAT") none (some "r")]
        (some ⟨some "PASS", none, none, none, some (GuessVal.str "true"), some "r"⟩)).1
        = guess_attempt "B"
          ([mkMove "A" "PLAY" (some "B") (some "COCKROACH") (some "BAT")
            none (some "r")].getLastD defaultMove)
          ⟨some "PASS", none, none, none, some (GuessVal.str "true"), some "r"⟩
    ∧ ((play_move 3 "B" [] ["C"]
        [mkMove "A" "PLAY" (some "B") (some "COCKROACH") (some "BAT") none (some "r")]
        (some ⟨some "PASS", none, none, none, some (GuessVal.str "true"),
          some "r"⟩)).1.action = "GUESS"
        ↔ ∃ g rs,
            (⟨some "PASS", none, none, none, some (GuessVal.str "true"),
              some "r"⟩ : Response).guess = some g
            ∧ (⟨some "PASS", none, none, none, some (GuessVal.str "true"),
              some "r"⟩ : Response).reason = some rs
            ∧ (normalize_guess g).isSome)
    ∧ ((play_move 3 "B" [] ["C"]
        [mkMove "A" "PLAY" (some "B") (some "COCKROACH") (some "BAT") none (some "r")]
        (some ⟨some "PASS", none, none, none, some (GuessVal.str "true"),
          some "r"⟩)).1.action = "GUESS"
      ∨ (play_move 3 "B" [] ["C"]
        [mkMove "A" "PLAY" (some "B") (some "COCKROACH") (some "BAT") none (some "r")]
        (some ⟨some "PASS", none, none, none, some (GuessVal.str "true"),
          some "r"⟩)).1.action = "FORFEIT") :=
  c10_free_choice_action 3 "B" [] ["C"]
    [mkMove "A" "PLAY" (some "B") (some "COCKROACH") (some "BAT") none (some "r")]
    ⟨some "PASS", none, none, none, some (GuessVal.str "true"), some "r"⟩
    (by decide) (by decide) (by decide) (by decide)

/-! ### A concrete two-round trace exhibiting the forfeit-backfill bug
(claims C3, C4) -/

def playersABC : List String := ["A", "B", "C"]

/-- A concrete shuffle of the 64-card deck.  Seat A's 22-card chunk holds
exactly one COCKROACH (in front position), so after A plays it the key
stays in A's hand counter with count 0. -/
def shuffledC3 : List String :=
  ["COCKROACH"] ++ List.replicate 8 "BAT" ++ List.replicate 8 "FLY"
    ++ List.replicate 8 "FROG" ++ List.replicate 8 "RAT"
    ++ List.replicate 8 "SCORPION" ++ List.replicate 8 "SPIDER"
    ++ List.replicate 8 "STINKBUG" ++ List.replicate 7 "COCKROACH"

/-- Round 1 agent: A truthfully plays its COCKROACH to B; B guesses TRUE
(correct), so claimant A takes the card back and starts round 2. -/
def agentRound1 : Nat → Option Response := fun i =>
  if i = 0 then
    some ⟨none, some "B", some "COCKROACH", some "COCKROACH", none, some "r"⟩
  else if i = 1 then
    some ⟨some "GUESS", none, none, some "NONE", some (GuessVal.str "TRUE"), some "r"⟩
  else none

/-- Round 2 agent: A's reply fails to parse, forcing an opening FORFEIT. -/
def agentNone : Nat → Option Response := fun _ => none

/-- A possible outcome of `random.choice` over the key list: the first
key.  After round 1 the first key of A's hand is COCKROACH, with count 0. -/
def pickHead : List String → String := fun l => l.headD ""

def dealC3 : (List (String × Counter)) × (List (String × Counter)) :=
  set_up_game playersABC shuffledC3

def roundOne : Option (String × RoundState) :=
  play_round playersABC agentRound1 pickHead dealC3.1 dealC3.2 "A"

def stateOne : RoundState :=
  match roundOne with
  | some x => x.2
  | none => ⟨[], [], "", [], []⟩

def roundTwo : Option (String × RoundState) :=
  play_round playersABC agentNone pickHead stateOne.hands stateOne.revealed
    stateOne.current

def stateTwo : RoundState :=
  match roundTwo with
  | some x => x.2
  | none => ⟨[], [], "", [], []⟩

/-- Claim C3 (code bug): along a reachable two-round game (dealt from a
permutation of the deck, no loser declared between the rounds), the
64-card sum invariant holds at every round boundary, but after round 2 —
an opening FORFEIT whose backfill picks A's zero-count COCKROACH key —
seat A's hand holds COCKROACH with count -1: a negative count in a
reachable round-boundary state, contradicting the claim. -/
theorem c3_negative_count_at_round_boundary :
    shuffledC3.Perm deck
    ∧ total_cards dealC3.1 dealC3.2 = 64
    ∧ roundOne = some ("A", stateOne)
    ∧ check_for_loser stateOne.hands stateOne.revealed = none
    ∧ total_cards stateOne.hands stateOne.revealed = 64
    ∧ roundTwo = some ("A", stateTwo)
    ∧ total_cards stateTwo.hands stateTwo.revealed = 64
    ∧ counterGet ((alookup stateTwo.hands "A").getD []) "COCKROACH" = -1 := by
  refine ⟨by decide, by decide, by decide, by decide, by decide, by decide,
    by decide, by decide⟩

/-- Claim C4 (code bug): the first-move FORFEIT in round 2 backfills by
choosing among all keys of the forfeiter's hand counter; here it selects
COCKROACH, whose count is 0 (the type is not actually present), so the
decrement drives the hand count to -1 while the revealed pile still
gains one COCKROACH. -/
theorem c4_backfill_zero_count :
    counterGet ((alookup stateOne.hands "A").getD []) "COCKROACH" = 0
    ∧ counterContains ((alookup stateOne.hands "A").getD []) "COCKROACH" = true
    ∧ pickHead (counterKeys ((alookup stateOne.hands "A").getD [])) = "COCKROACH"
    ∧ roundTwo = some ("A", stateTwo)
    ∧ (stateTwo.history.getLastD defaultMove).action = "FORFEIT"
    ∧ (stateTwo.history.getLastD defaultMove).card = "COCKROACH"
    ∧ counterGet ((alookup stateTwo.hands "A").getD []) "COCKROACH" = -1
    ∧ counterGet ((alookup stateTwo.revealed "A").getD []) "COCKROACH"
        = counterGet ((alookup stateOne.revealed "A").getD []) "COCKROACH" + 1 := by
  refine ⟨by decide, by decide, by decide, by decide, by decide, by decide,
    by decide, by decide⟩

/-! ### The must-pass branch records the inherited claim (claim C1) -/

def lookHistory : List Move :=
  [mkMove "A" "PLAY" (some "B") (some "COCKROACH") (some "BAT") none (some "r"),
   mkMove "B" "LOOK" (some "A") (some "COCKROACH") (some "BAT") none (some "r")]

def passResp : Response := ⟨none, some "C", none, some "SPIDER", none, some "r"⟩

/-- Claim C1 (code bug): seat B, forced to PASS after its LOOK, proposes
the new claim SPIDER, which is validated — yet the PASS move appended to
the history records the inherited claim BAT (main.py line 292 uses
`last_move.claim` instead of `response["claim"]`), and the subsequent
forced GUESS by seat C is resolved against BAT, not SPIDER. -/
theorem c1_pass_claim_inherited :
    passResp.claim = some "SPIDER"
    ∧ (play_move 3 "B" [] ["C"] lookHistory (some passResp)).1.action = "PASS"
    ∧ (play_move 3 "B" [] ["C"] lookHistory (some passResp)).1.claim = "BAT"
    ∧ ¬ (play_move 3 "B" [] ["C"] lookHistory (some passResp)).1.claim = "SPIDER"
    ∧ (play_move 3 "C" [] []
        (lookHistory ++ [(play_move 3 "B" [] ["C"] lookHistory (some passResp)).1])
        (some ⟨none, none, none, none, some (GuessVal.str "TRUE"),
          some "r"⟩)).1.action = "GUESS"
    ∧ (play_move 3 "C" [] []
        (lookHistory ++ [(play_move 3 "B" [] ["C"] lookHistory (some passResp)).1])
        (some ⟨none, none, none, none, some (GuessVal.str "TRUE"),
          some "r"⟩)).1.claim = "BAT" := by
  refine ⟨rfl, by decide, by decide, by decide, by decide, by decide⟩

/-! ### Loser detection order (claim C5) -/

def handsC5 : List (String × Counter) := [("A", [("BAT", 1)]), ("B", [("FLY", 0)])]

def revealedC5 : List (String × Counter) := [("A", [("BAT", 4)]), ("B", [])]

/-- Counterexample to claim C5 as stated: seat A comes first in
registration order and qualifies (four BATs revealed), yet the
later-registered seat B with an empty hand is declared the loser,
because `check_for_loser` scans all hands for emptiness before it scans
any revealed pile for a count of 4. -/
theorem c5_counterexample :
    handsC5.map (fun p => p.1) = ["A", "B"]
    ∧ counterGet ((alookup revealedC5 "A").getD []) "BAT" = 4
    ∧ ¬ counterTotal ((alookup handsC5 "A").getD []) = 0
    ∧ counterTotal ((alookup handsC5 "B").getD []) = 0
    ∧ check_for_loser handsC5 revealedC5 = some ("B", "No more cards in hand")
    ∧ ¬ (check_for_loser handsC5 revealedC5).map (fun p => p.1) = some "A" := by
  refine ⟨by decide, by decide, by decide, by decide, by decide, by decide⟩

theorem find?_append_first {α : Type} (p : α → Bool) (post : List α) (x : α)
    (hx : p x = true) :
    ∀ pre : List α, (∀ q ∈ pre, p q = false) →
      (pre ++ x :: post).find? p = some x := by
  intro pre
  induction pre with
  | nil =>
      intro _
      simpa using List.find?_cons_of_pos post hx
  | cons q pre ih =>
      intro hpre
      rw [List.cons_append, List.find?_cons_of_neg]
      · exact ih (fun y hy => hpre y (List.mem_cons_of_mem q hy))
      · simp [hpre q (List.mem_cons_self q pre)]

theorem find_four_first (post : List (String × Counter)) (p : String) (r : Counter)
    (hex : ∃ cc ∈ r, cc.2 = 4) :
    ∀ pre : List (String × Counter), (∀ q ∈ pre, ∀ cc ∈ q.2, ¬ cc.2 = 4) →
      ∃ s, find_four (pre ++ (p, r) :: post) = some (p, s) := by
  intro pre
  induction pre with
  | nil =>
      intro _
      have hs : (r.find? (fun cc => cc.2 == 4)).isSome := by
        rw [List.find?_isSome]
        obtain ⟨cc, hmem, h4⟩ := hex
        exact ⟨cc, hmem, by simp [h4]⟩
      obtain ⟨cc, hcc⟩ := Option.isSome_iff_exists.mp hs
      exact ⟨"4x " ++ cc.1, by simp [find_four, hcc]⟩
  | cons q pre ih =>
      intro hpre
      obtain ⟨qp, qc⟩ := q
      have hq : qc.find? (fun cc => cc.2 == 4) = none := by
        rw [List.find?_eq_none]
        intro cc hcc
        simp [hpre (qp, qc) (List.mem_cons_self (qp, qc) pre) cc hcc]
      rw [List.cons_append]
      simp only [find_four, hq]
      exact ih (fun y hy => hpre y (List.mem_cons_of_mem (qp, qc) hy))

/-- Claim C5 (amended): `check_for_loser` runs two sequential scans, each
in seat-registration order — first every seat's hand for emptiness, then
every seat's revealed pile for a count of 4.  The first seat of the
empty-hand scan wins that scan regardless of any earlier-registered seat
with four of a kind; the four-of-a-kind scan only applies when no seat at
all has an empty hand, and then its first qualifying seat in
registration order is declared the loser. -/
theorem c5_amended_loser_scan :
    (∀ (pre post revealed : List (String × Counter)) (p : String) (c : Counter),
      (∀ q ∈ pre, ¬ counterTotal q.2 = 0) → counterTotal c = 0 →
      check_for_loser (pre ++ (p, c) :: post) revealed
        = some (p, "No more cards in hand"))
    ∧ (∀ (hands pre post : List (String × Counter)) (p : String) (r : Counter),
      (∀ q ∈ hands, ¬ counterTotal q.2 = 0) →
      (∀ q ∈ pre, ∀ cc ∈ q.2, ¬ cc.2 = 4) →
      (∃ cc ∈ r, cc.2 = 4) →
      ∃ s, check_for_loser hands (pre ++ (p, r) :: post) = some (p, s)) := by
  constructor
  · intro pre post revealed p c hpre h0
    unfold check_for_loser
    have hf : (pre ++ (p, c) :: post).find? (fun ph => counterTotal ph.2 == 0)
        = some (p, c) :=
      find?_append_first _ post (p, c) (by simp [h0]) pre
        (fun q hq => by simp [hpre q hq])
    rw [hf]
  · intro hands pre post p r hhands hpre hex
    unfold check_for_loser
    have hnone : hands.find? (fun ph => counterTotal ph.2 == 0) = none := by
      rw [List.find?_eq_none]
      intro x hx
      simp [hhands x hx]
    rw [hnone]
    exact find_four_first post p r hex pre hpre

/-- Witness for the amended C5 at the counterexample state: B's empty
hand is found by the first scan even though A has four BATs revealed. -/
theorem c5_amended_loser_scan_witness :
    check_for_loser handsC5 revealedC5 = some ("B", "No more cards in hand") := by
  have h := c5_amended_loser_scan.1 [("A", [("BAT", 1)])] []
    revealedC5 "B" [("FLY", 0)] (by decide) (by decide)
  simpa [handsC5] using h
